import Mathlib

/-!
Verification of the UED centering core (`src/ued/model.py`).

The pipeline is shallowly embedded over exact rationals:

* a numpy floating-point image becomes an `NImg`: a pair of dimensions with a
  pixel function `ℕ → ℕ → Option ℚ`, where `none` models a not-a-number entry
  (NaN propagates through arithmetic via `Option`, and any comparison against
  a NaN yields `false`, as in numpy);
* a boolean numpy array becomes a `BMask` with a `Bool`-valued pixel function;
* `scipy` / `skimage` library routines called by the code (`nanquantile`,
  `binary_closing`, `binary_erosion`, `center_of_mass`, `warp_polar`,
  `np.nansum`, `np.clip`) are embedded from their documented semantics with
  their default parameters (structuring element `generate_binary_structure(2,1)`,
  border value 0, linear quantile interpolation, row-major traversal);
* `scipy.optimize.curve_fit` is an external solver: `center_eval` receives it
  as an explicit `Solver` argument, mirroring how the source already treats
  the model function and Jacobian as swappable parameters;
* floating-point powers `x ** b` and `np.log` with arbitrary rational
  arguments have no exact rational value, so the model function receives a
  power function `p` (and the Jacobian a logarithm) as a parameter; `p x b =
  none` encodes a non-finite IEEE result.  The Python `Model` object's fields
  become an explicit `ModelState` record threaded through the methods.

Batteries marks the rational operations irreducible, which only hides them
from elaboration-time evaluation; they are restored so that concrete witness
computations can be discharged by `decide`.
-/

attribute [local semireducible] Rat.add Rat.mul Rat.sub Rat.inv

set_option maxRecDepth 100000

namespace Ued

/-- A 2-D floating-point numpy array: `px i j = none` models a NaN pixel.
Only indices `i < rows`, `j < cols` are meaningful; every operation below
reads pixels inside the declared bounds only. -/
structure NImg where
  rows : ℕ
  cols : ℕ
  px : ℕ → ℕ → Option ℚ

/-- A 2-D boolean numpy array (a mask). -/
structure BMask where
  rows : ℕ
  cols : ℕ
  px : ℕ → ℕ → Bool

/-- Row-major list of all grid indices of an `rows × cols` array, the
traversal order numpy uses for boolean indexing and reductions. -/
def gridIdx (rows cols : ℕ) : List (ℕ × ℕ) :=
  (List.range rows).foldr (fun i acc => ((List.range cols).map (fun j => (i, j))) ++ acc) []

/-- All finite (non-NaN) pixel values of an image, in row-major order.
This is the population over which `np.nanquantile` computes its quantile. -/
def finiteVals (img : NImg) : List ℚ :=
  (gridIdx img.rows img.cols).filterMap (fun ij => img.px ij.1 ij.2)

/-- Insert into an ascending list (helper for sorting the quantile population). -/
def insertAsc (x : ℚ) : List ℚ → List ℚ
  | [] => [x]
  | y :: ys => if x ≤ y then x :: y :: ys else y :: insertAsc x ys

/-- Ascending insertion sort. -/
def sortQ (l : List ℚ) : List ℚ := l.foldr insertAsc []

/-- Floor of a nonnegative rational as an integer (`num / den` truncates
toward zero, which is the floor for the nonnegative arguments used here). -/
def qfloor (q : ℚ) : ℤ := q.num / q.den

/-- Embedding of `np.nanquantile(img, q)` with the default linear
interpolation: NaN pixels are excluded, the finite values are sorted, and the
value at fractional index `q * (n - 1)` is linearly interpolated.  An image
with no finite pixel yields `none` (numpy returns NaN there). -/
def nanquantile (img : NImg) (q : ℚ) : Option ℚ :=
  match sortQ (finiteVals img) with
  | [] => none
  | v0 :: vrest =>
    let v := v0 :: vrest
    let n := v.length
    let h : ℚ := q * ((n : ℚ) - 1)
    let k : ℕ := (qfloor h).toNat
    let vk := v.getD k 0
    let vk1 := v.getD (k + 1) vk
    some (vk + (h - (k : ℚ)) * (vk1 - vk))

/-- Embedding of `img > t` for a scalar threshold: comparisons against NaN
(on either side) are `false`, as in numpy. -/
def gtMaskThr (img : NImg) (t : Option ℚ) : BMask :=
  ⟨img.rows, img.cols, fun i j =>
    match img.px i j, t with
    | some v, some tv => decide (tv < v)
    | _, _ => false⟩

/-- Embedding of `img < t` for a scalar threshold, NaN-aware as above. -/
def ltMaskThr (img : NImg) (t : Option ℚ) : BMask :=
  ⟨img.rows, img.cols, fun i j =>
    match img.px i j, t with
    | some v, some tv => decide (v < tv)
    | _, _ => false⟩

/-- Pointwise conjunction of two masks (numpy `*` on boolean arrays). -/
def andMask (a b : BMask) : BMask :=
  ⟨a.rows, a.cols, fun i j => a.px i j && b.px i j⟩

/-- Pointwise complement of a mask (numpy `~`). -/
def notMask (a : BMask) : BMask :=
  ⟨a.rows, a.cols, fun i j => !a.px i j⟩

/-- One binary dilation by the default cross-shaped structuring element
`generate_binary_structure(2, 1)` with border value 0: a pixel is set when it
or any 4-neighbour inside the array is set. -/
def crossDilate (m : BMask) : BMask :=
  ⟨m.rows, m.cols, fun i j =>
    m.px i j
      || (decide (0 < i) && m.px (i - 1) j)
      || (decide (i + 1 < m.rows) && m.px (i + 1) j)
      || (decide (0 < j) && m.px i (j - 1))
      || (decide (j + 1 < m.cols) && m.px i (j + 1))⟩

/-- One binary erosion by the same structuring element with border value 0:
a pixel survives only when it and all four neighbours are set, neighbours
outside the array counting as 0 (so the outermost ring always erodes away). -/
def crossErode (m : BMask) : BMask :=
  ⟨m.rows, m.cols, fun i j =>
    m.px i j
      && (decide (0 < i) && m.px (i - 1) j)
      && (decide (i + 1 < m.rows) && m.px (i + 1) j)
      && (decide (0 < j) && m.px i (j - 1))
      && (decide (j + 1 < m.cols) && m.px i (j + 1))⟩

/-- Embedding of `scipy.ndimage.binary_closing` with default arguments:
one dilation followed by one erosion. -/
def binaryClosing (m : BMask) : BMask := crossErode (crossDilate m)

/-- Embedding of `scipy.ndimage.binary_erosion(m, iterations = n)`:
`n` successive cross erosions. -/
def binaryErosionN : ℕ → BMask → BMask
  | 0, m => m
  | n + 1, m => binaryErosionN n (crossErode m)

/-- Embedding of `Model.mask_eval` (`model.py` lines 99-102): quantile
thresholds over finite pixels, strict-inequality band mask, morphological
closing, and the pair `(mask, ~mask_min)`. -/
def mask_eval (img : NImg) (quantile_min quantile_max : ℚ) : BMask × BMask :=
  let mask_min := gtMaskThr img (nanquantile img quantile_min)
  let mask0 := andMask mask_min (ltMaskThr img (nanquantile img quantile_max))
  (binaryClosing mask0, notMask mask_min)

/-- A 1-D profile: one rational value per radius bin. -/
structure Prof where
  len : ℕ
  val : ℕ → ℚ

/-- Explicit record for the mutable fields of the Python `Model` object
(`model.py` `__init__`).  The UI-only fields (`controller`, the two bokeh
`ColumnDataSource`s, `pixel_size_init`) belong to excluded collaborators and
are omitted.  `img` is the loaded image (the methods under verification are
only reachable after `load_img` has set it). -/
structure ModelState where
  img : NImg
  img_bkg : Option NImg
  img_pol : Option NImg
  img_pol_masked : Option NImg
  img_pol_bkg : Option NImg
  prfl : Option Prof
  prfl_bkg : Option Prof
  prfl_flattened : Option Prof
  mask : Option BMask
  mask_min : Option BMask
  vmin : Option ℚ
  vmax : Option ℚ

/-- The deterministic downsampling stride for an image of the given shape:
`max(1, min(rows, cols) // 512)` (integer floor division). -/
def downsampleStep (rows cols : ℕ) : ℕ := max 1 (min rows cols / 512)

/-- The stride `center_eval` actually uses (`model.py` line 131): it is
derived from the shape of the model's stored image `self.img`, not from the
`img` argument. -/
def centerEvalStep (st : ModelState) : ℕ := downsampleStep st.img.rows st.img.cols

/-- Ceiling division: the length of `arr[::step]` for a numpy axis of length
`n` is `⌈n / step⌉`. -/
def ceilDiv (n step : ℕ) : ℕ := (n + step - 1) / step

/-- Embedding of `img[::step, ::step]` for images. -/
def subsampleI (step : ℕ) (img : NImg) : NImg :=
  ⟨ceilDiv img.rows step, ceilDiv img.cols step, fun i j => img.px (i * step) (j * step)⟩

/-- Embedding of `mask[::step, ::step]` for boolean masks. -/
def subsampleB (step : ℕ) (m : BMask) : BMask :=
  ⟨ceilDiv m.rows step, ceilDiv m.cols step, fun i j => m.px (i * step) (j * step)⟩

/-- Embedding of `np.ones_like(img, dtype=bool)`: the default all-usable mask
when `center_eval` receives `mask=None`. -/
def allTrue (rows cols : ℕ) : BMask := ⟨rows, cols, fun _ _ => true⟩

/-- Working copy of the subsampled image with pixels outside the eroded mask
set to NaN (`masked_img = img.copy().astype(float); masked_img[~mask] = nan`). -/
def applyMask (img : NImg) (m : BMask) : NImg :=
  ⟨img.rows, img.cols, fun i j => if m.px i j then img.px i j else none⟩

/-- Region moments for `scipy.ndimage.center_of_mass(img, labels, index)`:
row-major sums `(Σ w, Σ i·w, Σ j·w)` over the pixels whose label equals
`index` (a boolean mask has labels `false ↦ 0`, `true ↦ 1`).  A NaN pixel in
the region poisons the sums to `none`, as NaN does in numpy. -/
def regionMoments (img : NImg) (labels : BMask) (index : Bool) : Option (ℚ × ℚ × ℚ) :=
  (gridIdx img.rows img.cols).foldl
    (fun acc ij =>
      match acc with
      | none => none
      | some (s, si, sj) =>
        if labels.px ij.1 ij.2 = index then
          match img.px ij.1 ij.2 with
          | none => none
          | some w => some (s + w, si + (ij.1 : ℚ) * w, sj + (ij.2 : ℚ) * w)
        else some (s, si, sj))
    (some (0, 0, 0))

/-- Axis-0 (row) coordinate of `center_of_mass` over the selected label
region; `none` when a region weight is NaN or when the total weight is zero
(scipy produces NaN in both cases). -/
def comAxis0 (img : NImg) (labels : BMask) (index : Bool) : Option ℚ :=
  match regionMoments img labels index with
  | none => none
  | some (s, si, _) => if s = 0 then none else some (si / s)

/-- Axis-1 (column) coordinate of `center_of_mass` over the selected label
region. -/
def comAxis1 (img : NImg) (labels : BMask) (index : Bool) : Option ℚ :=
  match regionMoments img labels index with
  | none => none
  | some (s, _, sj) => if s = 0 then none else some (sj / s)

/-- NaN-propagating maximum of a nonempty pixel list (`np.max(img[mask])`). -/
def nanmaxList (v : Option ℚ) (vs : List (Option ℚ)) : Option ℚ :=
  vs.foldl
    (fun a b =>
      match a, b with
      | some x, some y => some (max x y)
      | _, _ => none) v

/-- The effective mask argument of `center_eval`: `np.ones_like` when absent. -/
def centerEvalMask (img : NImg) (maskArg : Option BMask) : BMask :=
  maskArg.getD (allTrue img.rows img.cols)

/-- The eroded subsampled mask used by the fit: the (possibly default) mask,
subsampled by the stride, then eroded 5 times
(`binary_erosion(mask, iterations=5)`, `model.py` line 136). -/
def centerEvalEroded (st : ModelState) (img : NImg) (maskArg : Option BMask) : BMask :=
  binaryErosionN 5 (subsampleB (centerEvalStep st) (centerEvalMask img maskArg))

/-- The subsampled image `center_eval` fits against. -/
def centerEvalImgSub (st : ModelState) (img : NImg) : NImg :=
  subsampleI (centerEvalStep st) img

/-- Row-major list of the subsampled pixel values selected by the eroded mask
(`img[mask]`). -/
def centerEvalVals (st : ModelState) (img : NImg) (maskArg : Option BMask) :
    List (Option ℚ) :=
  (gridIdx (centerEvalImgSub st img).rows (centerEvalImgSub st img).cols).filterMap
    (fun ij =>
      if (centerEvalEroded st img maskArg).px ij.1 ij.2 then
        some ((centerEvalImgSub st img).px ij.1 ij.2)
      else none)

/-- Row-major list of the coordinates selected by the eroded mask, as
`(row, column)` pairs (`coords[0][mask], coords[1][mask]`). -/
def centerEvalCoords (st : ModelState) (img : NImg) (maskArg : Option BMask) :
    List (ℕ × ℕ) :=
  (gridIdx (centerEvalImgSub st img).rows (centerEvalImgSub st img).cols).filter
    (fun ij => (centerEvalEroded st img maskArg).px ij.1 ij.2)

/-- Fit parameter vector `(a, b, xc, yc)`. -/
abbrev Popt : Type := ℚ × ℚ × ℚ × ℚ

/-- Initial-guess vector `guess0 = [a0, b0, xc_0, yc_0]`; the maximum and the
centroid coordinates are `Option`-valued because numpy can produce NaN for
them. -/
abbrev Guess : Type := Option ℚ × ℚ × Option ℚ × Option ℚ

/-- The initial guess `center_eval` builds (`model.py` lines 141-142):
`yc_0, xc_0 = center_of_mass(img, labels=mask, index=0)` — note `index=0`
selects the pixels whose label is 0, i.e. the pixels OUTSIDE the eroded mask —
and `guess0 = [np.max(img[mask]), -1, xc_0, yc_0]`. -/
def mkGuess (st : ModelState) (img : NImg) (maskArg : Option BMask)
    (v : Option ℚ) (vs : List (Option ℚ)) : Guess :=
  (nanmaxList v vs, -1,
   comAxis1 (centerEvalImgSub st img) (centerEvalEroded st img maskArg) false,
   comAxis0 (centerEvalImgSub st img) (centerEvalEroded st img maskArg) false)

/-- The seed as the spec describes it: centroid of the subsampled image
restricted to the eroded mask, i.e. `center_of_mass` over the label-1 (mask
`true`) region.  Used only to compare against what the code computes. -/
def specGuess (st : ModelState) (img : NImg) (maskArg : Option BMask)
    (v : Option ℚ) (vs : List (Option ℚ)) : Guess :=
  (nanmaxList v vs, -1,
   comAxis1 (centerEvalImgSub st img) (centerEvalEroded st img maskArg) true,
   comAxis0 (centerEvalImgSub st img) (centerEvalEroded st img maskArg) true)

/-- The initial guess actually fed to the solver, when at least one pixel
survives the erosion. -/
def centerEvalGuess (st : ModelState) (img : NImg) (maskArg : Option BMask) :
    Option Guess :=
  match centerEvalVals st img maskArg with
  | [] => none
  | v :: vs => some (mkGuess st img maskArg v vs)

/-- One box constraint `[lo, hi]`; `none` is an infinite bound (`±np.inf`). -/
structure Box where
  lo : Option ℚ
  hi : Option ℚ

/-- The four box constraints of the fit. -/
abbrev FitBounds : Type := Box × Box × Box × Box

/-- The bounds `center_eval` passes to the solver (`model.py` line 143):
`([0, -inf, 0, 0], [inf, 0, img.shape[1], img.shape[0]])` over the
subsampled image's shape. -/
def fitBounds (rows cols : ℕ) : FitBounds :=
  (⟨some 0, none⟩, ⟨none, some 0⟩, ⟨some 0, some (cols : ℚ)⟩, ⟨some 0, some (rows : ℚ)⟩)

/-- The bounds for a given call of `center_eval`. -/
def centerEvalBounds (st : ModelState) (img : NImg) : FitBounds :=
  fitBounds (centerEvalImgSub st img).rows (centerEvalImgSub st img).cols

/-- Membership of a scalar in one box constraint. -/
def inBox (x : ℚ) (b : Box) : Bool :=
  (match b.lo with
   | none => true
   | some l => decide (l ≤ x)) &&
  (match b.hi with
   | none => true
   | some h => decide (x ≤ h))

/-- Membership of a parameter vector in the fit bounds. -/
def withinBounds (p : Popt) (B : FitBounds) : Bool :=
  inBox p.1 B.1 && inBox p.2.1 B.2.1 && inBox p.2.2.1 B.2.2.1 && inBox p.2.2.2 B.2.2.2

/-- Failure of the external least-squares routine. -/
inductive SolverErr where
  | noConvergence : SolverErr
deriving DecidableEq

/-- Abstract interface of `scipy.optimize.curve_fit`: from the initial guess,
the bounds, the masked coordinates and the masked values it either returns a
fitted parameter vector or fails.  Its convergence behaviour lives outside
the repository; its documented contract (a returned vector respects the
bounds) is taken as a hypothesis where needed. -/
abbrev Solver : Type :=
  Guess → FitBounds → List (ℕ × ℕ) → List (Option ℚ) → Except SolverErr Popt

/-- Failures `center_eval` can raise: the degenerate-mask condition (numpy's
`np.max` of an empty selection raises) and a propagated solver failure. -/
inductive CError where
  | degenerateMask : CError
  | fitDivergence : SolverErr → CError
deriving DecidableEq

/-- A rational power function standing for numpy's elementwise `x ** b` on
floats; `none` encodes a non-finite result.  It is a parameter because a
rational base with a rational exponent has no exact rational power in
general; IEEE semantics force `p 0 b = none` for `b < 0` (a divergence),
which theorems assume explicitly where they need it. -/
abbrev PowFn : Type := ℚ → ℚ → Option ℚ

/-- NaN-propagating product, matching numpy (`0 * inf` is NaN, so a `none`
operand always yields `none`). -/
def optMul (a b : Option ℚ) : Option ℚ :=
  match a, b with
  | some x, some y => some (x * y)
  | _, _ => none

/-- Embedding of the module-level model function `fun(x, a, b, xc, yc) =
a * ((x[0] - xc)**2 + (x[1] - yc)**2) ** b` (`model.py` lines 12-14), with
the power supplied by `p`.  (`fun` is a Lean keyword, hence the name.) -/
def funModel (p : PowFn) (x : ℚ × ℚ) (a b xc yc : ℚ) : Option ℚ :=
  (p ((x.1 - xc) ^ 2 + (x.2 - yc) ^ 2) b).map (fun t => a * t)

/-- Embedding of the module-level Jacobian `jac` (`model.py` lines 16-25),
with the power supplied by `p` and the natural logarithm by `lg`. -/
def jacModel (p : PowFn) (lg : ℚ → Option ℚ) (x : ℚ × ℚ) (a b xc yc : ℚ) :
    Option ℚ × Option ℚ × Option ℚ × Option ℚ :=
  let squared_distance := (x.1 - xc) ^ 2 + (x.2 - yc) ^ 2
  let df_da := p squared_distance b
  let df_db := optMul (optMul (some a) df_da) (lg squared_distance)
  let df_dxc := optMul (some (-2 * a * b * (x.1 - xc))) (p squared_distance (b - 1))
  let df_dyc := optMul (some (-2 * a * b * (x.2 - yc))) (p squared_distance (b - 1))
  (df_da, df_db, df_dxc, df_dyc)

/-- The full-resolution background image `fun(np.mgrid[0:rows, 0:cols],
*popt) * step ** (-2 * popt[1])` evaluated over the stored image's grid. -/
def bkgImage (p : PowFn) (rows cols : ℕ) (popt : Popt) (step : ℕ) : NImg :=
  ⟨rows, cols, fun i j =>
    optMul (funModel p ((i : ℚ), (j : ℚ)) popt.1 popt.2.1 popt.2.2.1 popt.2.2.2)
      (p (step : ℚ) (-2 * popt.2.1))⟩

/-- Embedding of `Model.bkg_estimation_2d` (`model.py` lines 74-79): the
coordinate grid comes from `self.img.shape`, and the result is stored in the
`img_bkg` field. -/
def bkg_estimation_2d (p : PowFn) (st : ModelState) (popt : Popt) (step : ℕ) :
    ModelState :=
  { st with img_bkg := some (bkgImage p st.img.rows st.img.cols popt step) }

/-- Embedding of `Model.center_eval` (`model.py` lines 104-157).  The stride
comes from the stored image's shape; the image and mask arguments are
subsampled by it; the mask is eroded 5 times; an empty selection raises
(numpy `np.max` of an empty array); otherwise the solver is invoked with the
initial guess and bounds, its failure propagates, and on success the fitted
parameters are rescaled by the stride, the background is synthesized into
the state, and `(newState, center, masked_img)` is returned with
`center = (yc * step, xc * step)`. -/
def center_eval (p : PowFn) (st : ModelState) (img : NImg) (maskArg : Option BMask)
    (solver : Solver) : Except CError (ModelState × (ℚ × ℚ) × NImg) :=
  match centerEvalVals st img maskArg with
  | [] => .error .degenerateMask
  | v :: vs =>
    match solver (mkGuess st img maskArg v vs) (centerEvalBounds st img)
        (centerEvalCoords st img maskArg) (v :: vs) with
    | .error e => .error (.fitDivergence e)
    | .ok (a, b, xc, yc) =>
      let stepQ : ℚ := (centerEvalStep st : ℚ)
      let popt : Popt := (a, b, xc * stepQ, yc * stepQ)
      .ok (bkg_estimation_2d p st popt (centerEvalStep st),
           (yc * stepQ, xc * stepQ),
           applyMask (centerEvalImgSub st img) (centerEvalEroded st img maskArg))

/-- Whether a source coordinate `(y, x)` (row, column) lies inside the
image's extent, i.e. inside the convex hull of the pixel centers. -/
def inExtent (img : NImg) (c : ℚ × ℚ) : Prop :=
  0 ≤ c.1 ∧ c.1 ≤ (img.rows : ℚ) - 1 ∧ 0 ≤ c.2 ∧ c.2 ≤ (img.cols : ℚ) - 1

instance (img : NImg) (c : ℚ × ℚ) : Decidable (inExtent img c) := by
  unfold inExtent
  infer_instance

/-- Bilinear interpolation of an in-extent source coordinate, the default
order-1 interpolation of `skimage.transform.warp`; a NaN neighbour with
nonzero weight poisons the sample. -/
def sampleBilinear (img : NImg) (y x : ℚ) : Option ℚ :=
  let i0 := (qfloor y).toNat
  let j0 := (qfloor x).toNat
  let fy := y - ((qfloor y : ℤ) : ℚ)
  let fx := x - ((qfloor x : ℤ) : ℚ)
  let rowI := fun (j : ℕ) =>
    if fy = 0 then img.px i0 j
    else
      match img.px i0 j, img.px (i0 + 1) j with
      | some v0, some v1 => some ((1 - fy) * v0 + fy * v1)
      | _, _ => none
  if fx = 0 then rowI j0
  else
    match rowI j0, rowI (j0 + 1) with
    | some v0, some v1 => some ((1 - fx) * v0 + fx * v1)
    | _, _ => none

/-- Embedding of `skimage.transform.warp_polar(img, center=..., cval=...)`.
Output axis 0 indexes angle bins, axis 1 radius bins.  `pmap θ r` is the
polar-to-Cartesian coordinate map the center induces (`(y, x) = center +
r·(sin θ, cos θ)` up to the library's bin scaling); it is a parameter of the
embedding because its trigonometric values are not rational.  A bin whose
source coordinate falls inside the image extent is interpolated; any other
bin receives exactly the fill value `cval` (`mode='constant'`). -/
def warpPolar (img : NImg) (pmap : ℕ → ℕ → ℚ × ℚ) (dims : ℕ × ℕ)
    (cval : Option ℚ) : NImg :=
  ⟨dims.1, dims.2, fun θ r =>
    if inExtent img (pmap θ r) then sampleBilinear img (pmap θ r).1 (pmap θ r).2
    else cval⟩

/-- Embedding of `np.nansum(pimg, axis=0)`: sum over the angle axis treating
NaN entries as absent (an all-NaN column sums to 0, as in numpy). -/
def nansumAxis0 (pimg : NImg) : Prof :=
  ⟨pimg.cols, fun r =>
    (List.range pimg.rows).foldl (fun acc θ => acc + ((pimg.px θ r).getD 0)) 0⟩

/-- Embedding of `Model.set_pol_imgs` (`model.py` lines 159-174): warps the
raw image with fill value 0 and the two masked variants with fill value NaN,
stores the three polar images, and stores the three profiles, the flattened
one being `np.clip(prfl - prfl_bkg, 0, None)`. -/
def set_pol_imgs (st : ModelState) (img img_masked img_bkg_masked : NImg)
    (pmap : ℕ → ℕ → ℚ × ℚ) (dims : ℕ × ℕ) : ModelState :=
  let img_pol := warpPolar img pmap dims (some 0)
  let img_pol_masked := warpPolar img_masked pmap dims none
  let img_pol_bkg := warpPolar img_bkg_masked pmap dims none
  let prfl := nansumAxis0 img_pol_masked
  let prfl_bkg := nansumAxis0 img_pol_bkg
  { st with
    img_pol := some img_pol,
    img_pol_masked := some img_pol_masked,
    img_pol_bkg := some img_pol_bkg,
    prfl := some prfl,
    prfl_bkg := some prfl_bkg,
    prfl_flattened := some ⟨prfl.len, fun r => max (prfl.val r - prfl_bkg.val r) 0⟩ }

/-- The initial guess the spec describes, packaged like `centerEvalGuess`:
centroid over the mask-`true` region instead of the label-0 region. -/
def specGuessAt (st : ModelState) (img : NImg) (maskArg : Option BMask) :
    Option Guess :=
  match centerEvalVals st img maskArg with
  | [] => none
  | v :: vs => some (specGuess st img maskArg v vs)

/-- A solver that returns the fixed parameter vector `r` whenever `r`
respects the bounds it is handed, and fails otherwise.  This is a legitimate
instance of the abstract `curve_fit` contract, used for concrete runs. -/
def boundedSolver (r : Popt) : Solver :=
  fun _ B _ _ => if withinBounds r B then .ok r else .error .noConvergence

/-- A solver that always fails to converge. -/
def failSolver : Solver := fun _ _ _ _ => .error .noConvergence

/-- The center component of a `center_eval` result. -/
def getCenter : Except CError (ModelState × (ℚ × ℚ) × NImg) → Option (ℚ × ℚ)
  | .ok (_, c, _) => some c
  | .error _ => none

/-- The model-state component of a `center_eval` result. -/
def getState : Except CError (ModelState × (ℚ × ℚ) × NImg) → Option ModelState
  | .ok (s, _, _) => some s
  | .error _ => none

/-- Whether a `center_eval` result carries a synthesized background. -/
def getStateBkgSome (r : Except CError (ModelState × (ℚ × ℚ) × NImg)) : Bool :=
  match r with
  | .ok (s, _, _) => s.img_bkg.isSome
  | .error _ => false

/-- A concrete power function satisfying the IEEE divergence facts the
theorems assume (`p 0 b = none` for `b < 0`). -/
def defP : PowFn := fun x b => if x = 0 ∧ b < 0 then none else some 1

/-- A concrete logarithm with `lg 0 = none` (IEEE `log 0` diverges). -/
def defLog : ℚ → Option ℚ := fun x => if x = 0 then none else some 0

/-- Concrete 2×2 image with pixel values 1, 2, 3, 4 (row-major), used as a
witness input. -/
def img2x2 : NImg := ⟨2, 2, fun i j => some ((i : ℚ) * 2 + (j : ℚ) + 1)⟩

/-- Concrete 13×13 image whose pixel value is its row index plus one: large
enough that the all-true default mask survives 5 erosions (inner 3×3 block),
and asymmetric along rows so the two centroid conventions differ. -/
def img13 : NImg := ⟨13, 13, fun i _ => some ((i : ℚ) + 1)⟩

/-- Fresh model state holding `img13`, all other fields as `__init__` leaves
them. -/
def st13 : ModelState :=
  { img := img13, img_bkg := none, img_pol := none, img_pol_masked := none,
    img_pol_bkg := none, prfl := none, prfl_bkg := none, prfl_flattened := none,
    mask := none, mask_min := none, vmin := none, vmax := none }

/-- Concrete all-false 13×13 mask: no pixel survives, the degenerate case. -/
def falseMask13 : BMask := ⟨13, 13, fun _ _ => false⟩

/-- Concrete 1025×1025 zero image: its shorter side gives stride 2, which
does not divide 1025. -/
def img1025 : NImg := ⟨1025, 1025, fun _ _ => some 0⟩

/-- Concrete 1025×1025 mask that is true on a 22×22 corner block, so that
exactly one subsampled pixel survives the 5 erosions. -/
def mask1025 : BMask := ⟨1025, 1025, fun i j => decide (i < 22) && decide (j < 22)⟩

/-- Fresh model state holding `img1025`. -/
def st1025 : ModelState :=
  { img := img1025, img_bkg := none, img_pol := none, img_pol_masked := none,
    img_pol_bkg := none, prfl := none, prfl_bkg := none, prfl_flattened := none,
    mask := none, mask_min := none, vmin := none, vmax := none }

/-- Constant coordinate map sending every polar bin far outside a small
image's extent. -/
def pmapFar : ℕ → ℕ → ℚ × ℚ := fun _ _ => (100, 100)

/-- Propagation of `none` through `optMul` from the left (numpy: a NaN factor
always yields NaN). -/
theorem optMul_none_left (y : Option ℚ) : optMul none y = none := by
  cases y <;> rfl

/-- Propagation of `none` through `optMul` from the right. -/
theorem optMul_none_right (x : Option ℚ) : optMul x none = none := by
  cases x <;> rfl

/-- C3: for every 2-D image and quantile bounds `quantile_min < quantile_max`,
`mask_eval` computes its two thresholds as `nanquantile`s over the finite
pixels, forms the mask as the strict-inequality conjunction
`(img > low) AND (img < high)`, applies a morphological closing to it, and
returns the pair `(mask, NOT aboveLow)`; both returned masks have exactly the
input's shape (and are boolean by construction). -/
theorem mask_eval_matches_spec (img : NImg) (quantile_min quantile_max : ℚ)
    (hq : quantile_min < quantile_max) :
    (mask_eval img quantile_min quantile_max).1 =
      binaryClosing (andMask (gtMaskThr img (nanquantile img quantile_min))
        (ltMaskThr img (nanquantile img quantile_max))) ∧
    (mask_eval img quantile_min quantile_max).2 =
      notMask (gtMaskThr img (nanquantile img quantile_min)) ∧
    (mask_eval img quantile_min quantile_max).1.rows = img.rows ∧
    (mask_eval img quantile_min quantile_max).1.cols = img.cols ∧
    (mask_eval img quantile_min quantile_max).2.rows = img.rows ∧
    (mask_eval img quantile_min quantile_max).2.cols = img.cols :=
  ⟨rfl, rfl, rfl, rfl, rfl, rfl⟩

/-- Witness for C3 at the concrete image `img2x2` with the main-flow quantile
bounds `(0.10, 0.95)`. -/
theorem mask_eval_matches_spec_witness :
    ((1 : ℚ)/10 < 19/20) ∧
    (mask_eval img2x2 (1/10) (19/20)).2 =
      notMask (gtMaskThr img2x2 (nanquantile img2x2 (1/10))) ∧
    (mask_eval img2x2 (1/10) (19/20)).1.rows = img2x2.rows :=
  ⟨by norm_num,
   (mask_eval_matches_spec img2x2 (1/10) (19/20) (by norm_num)).2.1,
   (mask_eval_matches_spec img2x2 (1/10) (19/20) (by norm_num)).2.2.1⟩

/-- C5: the downsampling step used by `center_eval` is deterministic and
equals `max(1, s // 512)` for shorter side `s` (so `s = 256` gives step 1 and
`s = 2048` gives step 4), and both the image and the mask are subsampled by
that stride on both axes. -/
theorem downsample_step_spec :
    (∀ st : ModelState, centerEvalStep st = max 1 (min st.img.rows st.img.cols / 512)) ∧
    downsampleStep 256 256 = 1 ∧
    downsampleStep 2048 2048 = 4 ∧
    (∀ (step : ℕ) (img : NImg) (i j : ℕ),
      (subsampleI step img).px i j = img.px (i * step) (j * step)) ∧
    (∀ (step : ℕ) (m : BMask) (i j : ℕ),
      (subsampleB step m).px i j = m.px (i * step) (j * step)) ∧
    (∀ (st : ModelState) (img : NImg),
      centerEvalImgSub st img = subsampleI (centerEvalStep st) img) ∧
    (∀ (st : ModelState) (img : NImg) (maskArg : Option BMask),
      centerEvalEroded st img maskArg =
        binaryErosionN 5 (subsampleB (centerEvalStep st) (centerEvalMask img maskArg))) :=
  ⟨fun _ => rfl, by decide, by decide, fun _ _ _ _ => rfl, fun _ _ _ _ => rfl,
   fun _ _ => rfl, fun _ _ _ => rfl⟩

/-- C1 counterexample: at the concrete input `st13`/`img13` with the default
all-true mask, the seed `center_eval` computes (centroid of the label-0
region, i.e. the pixels OUTSIDE the eroded mask, row centroid 227/28) differs
from the seed the claim describes (centroid restricted to the eroded mask,
row centroid 128/21). -/
theorem center_eval_guess_not_mask_centroid :
    centerEvalGuess st13 img13 none ≠ specGuessAt st13 img13 none := by
  decide

/-- C1 (amended): whenever at least one pixel survives the erosion, the
initial guess seeded into the fit sets `a0` to the NaN-propagating maximum of
the subsampled image over the eroded mask, `b0` to `-1`, and `(xc0, yc0)` to
the center of mass of the subsampled image over the COMPLEMENT of the eroded
mask — `scipy.ndimage.center_of_mass(img, labels=mask, index=0)` selects the
label-0 region, the pixels where the eroded mask is false. -/
theorem center_eval_initial_guess (st : ModelState) (img : NImg)
    (maskArg : Option BMask) (v : Option ℚ) (vs : List (Option ℚ))
    (h : centerEvalVals st img maskArg = v :: vs) :
    centerEvalGuess st img maskArg =
      some (nanmaxList v vs, -1,
        comAxis1 (centerEvalImgSub st img) (centerEvalEroded st img maskArg) false,
        comAxis0 (centerEvalImgSub st img) (centerEvalEroded st img maskArg) false) := by
  unfold centerEvalGuess
  rw [h]
  rfl

/-- Witness for C1 at the concrete input: the nine surviving pixel values and
the resulting guess. -/
theorem center_eval_initial_guess_witness :
    centerEvalVals st13 img13 none =
      some 6 :: [some 6, some 6, some 7, some 7, some 7, some 8, some 8, some 8] ∧
    centerEvalGuess st13 img13 none =
      some (nanmaxList (some 6)
          [some 6, some 6, some 7, some 7, some 7, some 8, some 8, some 8], -1,
        comAxis1 (centerEvalImgSub st13 img13) (centerEvalEroded st13 img13 none) false,
        comAxis0 (centerEvalImgSub st13 img13) (centerEvalEroded st13 img13 none) false) :=
  ⟨by decide,
   center_eval_initial_guess st13 img13 none (some 6)
     [some 6, some 6, some 7, some 7, some 7, some 8, some 8, some 8] (by decide)⟩

/-- C9: `center_eval` derives its stride from the shape of the model's
stored image, and the synthesized background is laid over the stored image's
pixel grid; under the implicit precondition that the passed image has the
stored image's shape the stride corresponds to the argument, while a
differently-shaped argument (1025×1025 stored vs 13×13 passed) yields a
stride that does not correspond to it. -/
theorem center_eval_uses_stored_shape :
    (∀ st : ModelState, centerEvalStep st = downsampleStep st.img.rows st.img.cols) ∧
    (∀ (p : PowFn) (st : ModelState) (popt : Popt) (stp : ℕ),
      ((bkg_estimation_2d p st popt stp).img_bkg).map (fun b => (b.rows, b.cols)) =
        some (st.img.rows, st.img.cols)) ∧
    (∀ (st : ModelState) (img : NImg),
      img.rows = st.img.rows → img.cols = st.img.cols →
      centerEvalStep st = downsampleStep img.rows img.cols) ∧
    downsampleStep img1025.rows img1025.cols ≠ downsampleStep img13.rows img13.cols := by
  refine ⟨fun _ => rfl, fun _ _ _ _ => rfl, ?_, by decide⟩
  intro st img h1 h2
  unfold centerEvalStep
  rw [h1, h2]

/-- Witness for C9: with matching shapes the stride corresponds to the
argument image. -/
theorem center_eval_uses_stored_shape_witness :
    img13.rows = st13.img.rows ∧ img13.cols = st13.img.cols ∧
    centerEvalStep st13 = downsampleStep img13.rows img13.cols :=
  ⟨rfl, rfl, center_eval_uses_stored_shape.2.2.1 st13 img13 rfl rfl⟩

/-- C10: the radial model and its Jacobian are undefined at the exact
center: at a sample equal to `(xc, yc)` the squared distance is 0, so with
`b < 0` the power `0 ** b` is a division by zero (IEEE: non-finite, modelled
as `none`) and `log 0` diverges; `funModel`, `jacModel` and the full-grid
background synthesis all produce an undefined value there, unguarded. -/
theorem radial_model_undefined_at_center (p : PowFn) (lg : ℚ → Option ℚ)
    (a b xc yc : ℚ) (hb : b < 0) (h0 : p 0 b = none) (h1 : p 0 (b - 1) = none)
    (hl : lg 0 = none) :
    ((xc - xc) ^ 2 + (yc - yc) ^ 2 = 0) ∧
    funModel p (xc, yc) a b xc yc = none ∧
    jacModel p lg (xc, yc) a b xc yc = (none, none, none, none) ∧
    (∀ (rows cols stp i j : ℕ), (i : ℚ) = xc → (j : ℚ) = yc →
      (bkgImage p rows cols (a, b, xc, yc) stp).px i j = none) := by
  have hsd : (xc - xc) ^ 2 + (yc - yc) ^ 2 = 0 := by ring
  have hfun : funModel p (xc, yc) a b xc yc = none := by
    unfold funModel
    simp only [hsd, h0]
    rfl
  refine ⟨hsd, hfun, ?_, ?_⟩
  · unfold jacModel
    simp only [hsd, h0, h1, hl, optMul_none_right, optMul_none_left]
  · intro rows cols stp i j hi hj
    unfold bkgImage
    simp only
    have : funModel p ((i : ℚ), (j : ℚ)) a b xc yc = none := by
      unfold funModel
      rw [hi, hj]
      simp only [hsd, h0]
      rfl
    rw [this, optMul_none_left]

/-- Witness for C10 with the concrete power and logarithm functions and the
parameters `a = 5`, `b = -1`, center `(3, 4)`. -/
theorem radial_model_undefined_at_center_witness :
    ((-1 : ℚ) < 0) ∧ defP 0 (-1) = none ∧ defP 0 (-1 - 1) = none ∧ defLog 0 = none ∧
    funModel defP ((3 : ℚ), (4 : ℚ)) 5 (-1) 3 4 = none ∧
    jacModel defP defLog ((3 : ℚ), (4 : ℚ)) 5 (-1) 3 4 = (none, none, none, none) ∧
    (bkgImage defP 13 13 (5, -1, 3, 4) 1).px 3 4 = none :=
  ⟨by norm_num, by decide, by decide, by decide,
   (radial_model_undefined_at_center defP defLog 5 (-1) 3 4 (by norm_num) (by decide)
     (by decide) (by decide)).2.1,
   (radial_model_undefined_at_center defP defLog 5 (-1) 3 4 (by norm_num) (by decide)
     (by decide) (by decide)).2.2.1,
   (radial_model_undefined_at_center defP defLog 5 (-1) 3 4 (by norm_num) (by decide)
     (by decide) (by decide)).2.2.2 13 13 1 3 4 (by norm_num) (by norm_num)⟩

/-- C6: `center_eval` propagates every failure to its caller: an empty
selection after erosion raises the degenerate-mask error, and a solver
failure propagates as a fit-divergence error; in neither case is a guessed
center returned, and no failure is swallowed. -/
theorem center_eval_propagates_failures (p : PowFn) (st : ModelState) (img : NImg)
    (maskArg : Option BMask) (solver : Solver) :
    (centerEvalVals st img maskArg = [] →
      center_eval p st img maskArg solver = .error .degenerateMask) ∧
    (∀ (g : Guess) (e : SolverErr), centerEvalGuess st img maskArg = some g →
      solver g (centerEvalBounds st img) (centerEvalCoords st img maskArg)
          (centerEvalVals st img maskArg) = .error e →
      center_eval p st img maskArg solver = .error (.fitDivergence e)) := by
  constructor
  · intro h
    unfold center_eval
    rw [h]
  · intro g e hg hsol
    cases hv : centerEvalVals st img maskArg with
    | nil =>
      unfold centerEvalGuess at hg
      rw [hv] at hg
      exact absurd hg (by simp)
    | cons v vs =>
      unfold centerEvalGuess at hg
      rw [hv] at hg
      have hgv : g = mkGuess st img maskArg v vs := by
        injection hg with hg2
        exact hg2.symm
      rw [hv, hgv] at hsol
      unfold center_eval
      rw [hv]
      dsimp only
      rw [hsol]

/-- Witness for C6: the all-false mask raises the degenerate-mask error, and
an always-failing solver's failure propagates. -/
theorem center_eval_propagates_failures_witness :
    center_eval defP st13 img13 (some falseMask13) failSolver = .error .degenerateMask ∧
    center_eval defP st13 img13 none failSolver = .error (.fitDivergence .noConvergence) :=
  ⟨(center_eval_propagates_failures defP st13 img13 (some falseMask13) failSolver).1
     (by decide),
   (center_eval_propagates_failures defP st13 img13 none failSolver).2
     (mkGuess st13 img13 none (some 6)
       [some 6, some 6, some 7, some 7, some 7, some 8, some 8, some 8])
     .noConvergence (by decide) rfl⟩

/-- C2 counterexample: with the stored 1025×1025 image the stride is 2 and
the subsampled width is `ceil(1025/2) = 513`; the parameter vector
`(a, b, xc, yc) = (1, -1, 513, 480)` is inside the fit bounds, yet after
rescaling by the stride the reported x-coordinate is `1026 > 1025`, outside
the source image's extent — the bounds do not enforce the claimed invariant. -/
theorem center_outside_extent :
    withinBounds (1, -1, 513, 480) (centerEvalBounds st1025 img1025) = true ∧
    getCenter (center_eval defP st1025 img1025 (some mask1025)
      (boundedSolver (1, -1, 513, 480))) = some (960, 1026) ∧
    img1025.cols = 1025 ∧
    ¬ ((1026 : ℚ) ≤ ((1025 : ℕ) : ℚ)) :=
  ⟨by decide, by decide, rfl, by norm_num⟩

/-- C2 (amended): for every call whose solver only returns vectors inside the
bounds it is given (the `curve_fit` contract), the returned full-resolution
center satisfies `0 ≤ y ≤ subRows * step` and `0 ≤ x ≤ subCols * step`,
where `subRows × subCols` is the subsampled shape `⌈H/step⌉ × ⌈W/step⌉`;
this box contains the source extent but can exceed it by up to `step - 1`
when the stride does not divide the dimensions (it coincides with the extent
when `step` divides them, e.g. for `step = 1`). -/
theorem center_within_scaled_bounds (p : PowFn) (st : ModelState) (img : NImg)
    (maskArg : Option BMask) (solver : Solver)
    (hs : ∀ g c v r, solver g (centerEvalBounds st img) c v = .ok r →
      withinBounds r (centerEvalBounds st img) = true)
    (y x : ℚ)
    (h : getCenter (center_eval p st img maskArg solver) = some (y, x)) :
    0 ≤ y ∧ y ≤ ((centerEvalImgSub st img).rows : ℚ) * (centerEvalStep st : ℚ) ∧
    0 ≤ x ∧ x ≤ ((centerEvalImgSub st img).cols : ℚ) * (centerEvalStep st : ℚ) := by
  cases hv : centerEvalVals st img maskArg with
  | nil =>
    unfold center_eval at h
    rw [hv] at h
    exact absurd h (by simp [getCenter])
  | cons v vs =>
    unfold center_eval at h
    rw [hv] at h
    dsimp only at h
    cases hsol : solver (mkGuess st img maskArg v vs) (centerEvalBounds st img)
        (centerEvalCoords st img maskArg) (v :: vs) with
    | error e =>
      rw [hsol] at h
      exact absurd h (by simp [getCenter])
    | ok r =>
      obtain ⟨a, b, xc, yc⟩ := r
      rw [hsol] at h
      dsimp only [getCenter] at h
      have hw := hs _ _ _ _ hsol
      injection h with h2
      have hy1 : yc * (centerEvalStep st : ℚ) = y := congrArg Prod.fst h2
      have hx1 : xc * (centerEvalStep st : ℚ) = x := congrArg Prod.snd h2
      subst hy1
      subst hx1
      unfold withinBounds centerEvalBounds fitBounds inBox at hw
      simp only [Bool.and_eq_true, decide_eq_true_eq] at hw
      obtain ⟨⟨⟨-, -⟩, hxc⟩, hyc⟩ := hw
      have hstep : (0 : ℚ) ≤ (centerEvalStep st : ℚ) := Nat.cast_nonneg _
      exact ⟨mul_nonneg hyc.1 hstep, mul_le_mul_of_nonneg_right hyc.2 hstep,
        mul_nonneg hxc.1 hstep, mul_le_mul_of_nonneg_right hxc.2 hstep⟩

/-- Witness for C2 (amended) at the 1025×1025 input with the bounds-checking
solver. -/
theorem center_within_scaled_bounds_witness :
    (0 : ℚ) ≤ 960 ∧
    (960 : ℚ) ≤ ((centerEvalImgSub st1025 img1025).rows : ℚ) * (centerEvalStep st1025 : ℚ) ∧
    (0 : ℚ) ≤ 1026 ∧
    (1026 : ℚ) ≤ ((centerEvalImgSub st1025 img1025).cols : ℚ) * (centerEvalStep st1025 : ℚ) :=
  center_within_scaled_bounds defP st1025 img1025 (some mask1025)
    (boundedSolver (1, -1, 513, 480))
    (by
      intro g c v r hr
      unfold boundedSolver at hr
      split at hr
      next hcond =>
        injection hr with hr2
        subst hr2
        exact hcond
      next =>
        cases hr)
    960 1026 (by decide)

/-- C7 counterexample: a `center_eval` call does retain mutable state on the
model across calls: starting from a state whose `img_bkg` is `None`, the call
leaves a synthesized background stored in the model. -/
theorem center_eval_retains_background_state :
    st13.img_bkg = none ∧
    getStateBkgSome (center_eval defP st13 img13 none (boundedSolver (1, -1, 6, 6))) = true :=
  ⟨rfl, by decide⟩

/-- C7 (amended): the core operations never mutate their input arrays (all
outputs are fresh arrays in this embedding, mirroring the source's copies),
but they do store results on the model: the background synthesis changes
exactly the `img_bkg` field, and `set_pol_imgs` changes exactly the three
polar images and the three profiles; every other model field is preserved
(`mask_eval` touches no model field at all). -/
theorem core_ops_mutate_only_result_fields :
    (∀ (p : PowFn) (st : ModelState) (popt : Popt) (stp : ℕ),
      (bkg_estimation_2d p st popt stp).img = st.img ∧
      (bkg_estimation_2d p st popt stp).img_pol = st.img_pol ∧
      (bkg_estimation_2d p st popt stp).img_pol_masked = st.img_pol_masked ∧
      (bkg_estimation_2d p st popt stp).img_pol_bkg = st.img_pol_bkg ∧
      (bkg_estimation_2d p st popt stp).prfl = st.prfl ∧
      (bkg_estimation_2d p st popt stp).prfl_bkg = st.prfl_bkg ∧
      (bkg_estimation_2d p st popt stp).prfl_flattened = st.prfl_flattened ∧
      (bkg_estimation_2d p st popt stp).mask = st.mask ∧
      (bkg_estimation_2d p st popt stp).mask_min = st.mask_min ∧
      (bkg_estimation_2d p st popt stp).vmin = st.vmin ∧
      (bkg_estimation_2d p st popt stp).vmax = st.vmax ∧
      (bkg_estimation_2d p st popt stp).img_bkg =
        some (bkgImage p st.img.rows st.img.cols popt stp)) ∧
    (∀ (st : ModelState) (i iM iB : NImg) (pm : ℕ → ℕ → ℚ × ℚ) (dm : ℕ × ℕ),
      (set_pol_imgs st i iM iB pm dm).img = st.img ∧
      (set_pol_imgs st i iM iB pm dm).img_bkg = st.img_bkg ∧
      (set_pol_imgs st i iM iB pm dm).mask = st.mask ∧
      (set_pol_imgs st i iM iB pm dm).mask_min = st.mask_min ∧
      (set_pol_imgs st i iM iB pm dm).vmin = st.vmin ∧
      (set_pol_imgs st i iM iB pm dm).vmax = st.vmax) :=
  ⟨fun _ _ _ _ => ⟨rfl, rfl, rfl, rfl, rfl, rfl, rfl, rfl, rfl, rfl, rfl, rfl⟩,
   fun _ _ _ _ _ _ => ⟨rfl, rfl, rfl, rfl, rfl, rfl⟩⟩

/-- C4: the two profiles are the NaN-ignoring angular sums of the masked and
background polar images, the flattened profile is
`clip(prfl - prfl_bkg, 0, None)` elementwise, and it has no entry below 0. -/
theorem flattened_profile_clipped (st : ModelState) (img iM iB : NImg)
    (pmap : ℕ → ℕ → ℚ × ℚ) (dims : ℕ × ℕ) :
    (set_pol_imgs st img iM iB pmap dims).prfl =
      some (nansumAxis0 (warpPolar iM pmap dims none)) ∧
    (set_pol_imgs st img iM iB pmap dims).prfl_bkg =
      some (nansumAxis0 (warpPolar iB pmap dims none)) ∧
    (set_pol_imgs st img iM iB pmap dims).prfl_flattened =
      some ⟨(nansumAxis0 (warpPolar iM pmap dims none)).len,
        fun r => max ((nansumAxis0 (warpPolar iM pmap dims none)).val r -
          (nansumAxis0 (warpPolar iB pmap dims none)).val r) 0⟩ ∧
    (∀ r : ℕ, 0 ≤ max ((nansumAxis0 (warpPolar iM pmap dims none)).val r -
        (nansumAxis0 (warpPolar iB pmap dims none)).val r) 0) :=
  ⟨rfl, rfl, rfl, fun _ => le_max_right _ _⟩

/-- C8: `set_pol_imgs` warps the raw image with fill value 0 and the two
masked variants with fill value NaN, and any polar bin whose source
coordinate falls outside the image extent equals exactly the requested fill
value. -/
theorem warp_polar_fill_contract (st : ModelState) (img iM iB : NImg)
    (pmap : ℕ → ℕ → ℚ × ℚ) (dims : ℕ × ℕ) :
    (set_pol_imgs st img iM iB pmap dims).img_pol =
      some (warpPolar img pmap dims (some 0)) ∧
    (set_pol_imgs st img iM iB pmap dims).img_pol_masked =
      some (warpPolar iM pmap dims none) ∧
    (set_pol_imgs st img iM iB pmap dims).img_pol_bkg =
      some (warpPolar iB pmap dims none) ∧
    (∀ (cval : Option ℚ) (θ r : ℕ), ¬ inExtent img (pmap θ r) →
      (warpPolar img pmap dims cval).px θ r = cval) := by
  refine ⟨rfl, rfl, rfl, fun cval θ r h => ?_⟩
  unfold warpPolar
  simp only [if_neg h]

/-- Witness for C8: a coordinate map sending every bin to `(100, 100)`, far
outside the 2×2 image, yields exactly the fill value for both fill choices. -/
theorem warp_polar_fill_contract_witness :
    ¬ inExtent img2x2 (pmapFar 0 0) ∧
    (warpPolar img2x2 pmapFar (360, 5) (some 0)).px 0 0 = some 0 ∧
    (warpPolar img2x2 pmapFar (360, 5) none).px 0 0 = none :=
  ⟨by decide,
   (warp_polar_fill_contract st13 img2x2 img2x2 img2x2 pmapFar (360, 5)).2.2.2
     (some 0) 0 0 (by decide),
   (warp_polar_fill_contract st13 img2x2 img2x2 img2x2 pmapFar (360, 5)).2.2.2
     none 0 0 (by decide)⟩

end Ued
